import Mathlib

/-!
Verification of the memora utility scripts: the LoCoMo reference dumper
(`benchmarks/locomo_helpers/dump_references.py`), the MemoryAgentBench
reference dumper (`benchmarks/mab_helpers/dump_references.py`), and the
BGE reranker serving handler (`scripts/aws/templates/bge_reranker/inference.py`).

The Python code manipulates JSON-decoded values (the result of `json.loads`
or of iterating a dataset), so the embedding works over an inductive type
`JVal` of JSON values: `null`, booleans, numbers (modelled as integers;
no claim depends on float formatting), strings, arrays, and objects
(association lists in insertion order, keys unique, as Python dicts).
-/

namespace Memora

inductive JVal where
  | null : JVal
  | bool : Bool → JVal
  | num : Int → JVal
  | str : String → JVal
  | arr : List JVal → JVal
  | obj : List (String × JVal) → JVal

/-- Association-list lookup: Python `d[k]` / `d.get(k)` on a dict with
unique keys (first binding wins). -/
def lookupKey : List (String × JVal) → String → Option JVal
  | [], _ => none
  | (k, v) :: rest, key => if k = key then some v else lookupKey rest key

/-- Python `k in d` for a dict. -/
def hasKey (d : List (String × JVal)) (k : String) : Bool :=
  (lookupKey d k).isSome

/-- Lookup with `null` default; only used under a `hasKey` guard. -/
def getKeyD (d : List (String × JVal)) (k : String) : JVal :=
  (lookupKey d k).getD .null

/-- JSON string escaping as done by `json.dumps` for the characters the
repository's data can contain (quote, backslash, the common control
characters); other characters pass through, matching
`ensure_ascii=False`. -/
def jsonEscapeChar (c : Char) : String :=
  if c = '"' then "\\\""
  else if c = '\\' then "\\\\"
  else if c = '\n' then "\\n"
  else if c = '\t' then "\\t"
  else if c = '\r' then "\\r"
  else String.singleton c

def jsonEscape (s : String) : String :=
  String.join (s.data.map jsonEscapeChar)

mutual
/-- Python `json.dumps(x, ensure_ascii=False)` with default separators,
used by `_to_str` for dict/list values. -/
def jsonDumps : JVal → String
  | .null => "null"
  | .bool true => "true"
  | .bool false => "false"
  | .num n => toString n
  | .str s => "\"" ++ jsonEscape s ++ "\""
  | .arr xs => "[" ++ jsonDumpsList xs ++ "]"
  | .obj fs => "\x7b" ++ jsonDumpsFields fs ++ "\x7d"

def jsonDumpsList : List JVal → String
  | [] => ""
  | [x] => jsonDumps x
  | x :: y :: rest => jsonDumps x ++ ", " ++ jsonDumpsList (y :: rest)

def jsonDumpsFields : List (String × JVal) → String
  | [] => ""
  | [(k, v)] => "\"" ++ jsonEscape k ++ "\": " ++ jsonDumps v
  | (k, v) :: f :: rest =>
      "\"" ++ jsonEscape k ++ "\": " ++ jsonDumps v ++ ", " ++ jsonDumpsFields (f :: rest)
end

/-! ### String helpers: Python `in` (substring) and `str` -/

/-- `needle` occurs at the front of the second list. -/
def charsHasPre : List Char → List Char → Bool
  | [], _ => true
  | _ :: _, [] => false
  | a :: as, b :: bs => a == b && charsHasPre as bs

/-- `needle` occurs somewhere in the second list. -/
def charsContains (needle : List Char) : List Char → Bool
  | [] => charsHasPre needle []
  | c :: cs => charsHasPre needle (c :: cs) || charsContains needle cs

/-- Python `needle in hay` on strings (substring containment). -/
def containsStr (hay needle : String) : Bool :=
  charsContains needle.data hay.data

mutual
/-- Python `repr(x)` on JSON values (used by `str` on lists/dicts).
Strings are shown with single quotes; the quote-switching Python applies
when the string itself holds a quote is not modelled — no repository
data or claim exercises `str` on a container of such strings. -/
def pyRepr : JVal → String
  | .null => "None"
  | .bool true => "True"
  | .bool false => "False"
  | .num n => toString n
  | .str s => "\x27" ++ s ++ "\x27"
  | .arr xs => "[" ++ pyReprList xs ++ "]"
  | .obj fs => "\x7b" ++ pyReprFields fs ++ "\x7d"

def pyReprList : List JVal → String
  | [] => ""
  | [x] => pyRepr x
  | x :: y :: rest => pyRepr x ++ ", " ++ pyReprList (y :: rest)

def pyReprFields : List (String × JVal) → String
  | [] => ""
  | [(k, v)] => "\x27" ++ k ++ "\x27: " ++ pyRepr v
  | (k, v) :: f :: rest =>
      "\x27" ++ k ++ "\x27: " ++ pyRepr v ++ ", " ++ pyReprFields (f :: rest)
end

/-- Python `str(x)` on a JSON value: identity on strings, `repr`-like on
everything else. -/
def pyStr : JVal → String
  | .str s => s
  | v => pyRepr v

/-! ### LoCoMo dumper (`benchmarks/locomo_helpers/dump_references.py`) -/

/-- `_first_present(d, keys)`: the first value among `keys` that is
present in `d` and not `None`. -/
def firstPresent (d : List (String × JVal)) : List String → Option JVal
  | [] => none
  | k :: ks =>
    match lookupKey d k with
    | some .null => firstPresent d ks
    | some v => some v
    | none => firstPresent d ks

/-- `_to_str(x)`: `""` for `None`, `json.dumps` for dict/list (the
`try/except` fallback never fires on JSON values), `str(x)` otherwise. -/
def toStr : JVal → String
  | .null => ""
  | .arr xs => jsonDumps (.arr xs)
  | .obj fs => jsonDumps (.obj fs)
  | .bool true => "True"
  | .bool false => "False"
  | .num n => toString n
  | .str s => s

def questionKeys : List String :=
  ["question", "query", "input", "prompt", "instruction"]

def answerKeys : List String :=
  ["answer", "label", "ground_truth", "target", "output"]

def contextKeys : List String :=
  ["context", "document", "passage", "history", "long_context", "source_text", "docs"]

def questionIdKeys : List String :=
  ["question_id", "qid", "id", "uid", "sample_id", "example_id"]

def questionTypeKeys : List String :=
  ["question_type", "type", "category", "tag"]

def abstentionKeys : List String :=
  ["abstention", "is_abstention", "skip", "unanswerable"]

/-- The normalized reference record of the LoCoMo dumper. -/
structure LocomoRef where
  question : String
  answer : String
  question_id : String
  question_type : Option String
  context : String
  source : Option String
  abstention : Option Bool
  deriving DecidableEq

/-- `_normalize_example(ex, idx, source_tag)`. -/
def normalizeExample (ex : List (String × JVal)) (idx : Nat)
    (sourceTag : Option String) : LocomoRef :=
  { question := toStr ((firstPresent ex questionKeys).getD .null)
    answer := toStr ((firstPresent ex answerKeys).getD .null)
    question_id :=
      toStr ((firstPresent ex questionIdKeys).getD (.str ("locomo-" ++ toString idx)))
    question_type := (firstPresent ex questionTypeKeys).map toStr
    context := toStr ((firstPresent ex contextKeys).getD .null)
    source := sourceTag
    abstention :=
      match firstPresent ex abstentionKeys with
      | some (.bool b) => some b
      | _ => none }

/-- Is key `k` present in `d` with a non-`None` value (the per-key test
of `_first_present`)? -/
def presentNonNull (d : List (String × JVal)) (k : String) : Bool :=
  match lookupKey d k with
  | some .null => false
  | some _ => true
  | none => false

/-- The CLI arguments of the LoCoMo dumper (`argparse` defaults:
`dataset_id`, `from_file` and `limit` default to `None`). -/
structure LocomoArgs where
  out : String
  dataset_id : Option String
  split : String
  from_file : Option String
  limit : Option Int

/-- Observable outcome of `main()`: either `sys.exit(2)` after a message
on stderr, or a normalized reference list written to the output path. -/
inductive LocomoOutcome where
  | exitErr : Nat → String → LocomoOutcome
  | wrote : String → List LocomoRef → LocomoOutcome
  deriving DecidableEq

/-- Python truthiness of an optional string argument (`None` and `""`
are falsy). -/
def truthyOpt : Option String → Bool
  | none => false
  | some s => !(s == "")

/-- The `--limit` handling in `main()`:
`if args.limit is not None and args.limit > 0: raw = raw[: min(args.limit, len(raw))]`. -/
def applyLimit (limit : Option Int) (raw : List JVal) : List JVal :=
  match limit with
  | some k => if 0 < k then raw.take (min k.toNat raw.length) else raw
  | none => raw

/-- The per-item wrapping in `main()`:
`if not isinstance(ex, dict): ex = \x7b"value": ex\x7d`. -/
def toDictWrap : JVal → List (String × JVal)
  | .obj d => d
  | v => [("value", v)]

/-- The normalization loop of `main()`: one record per raw item, at its
positional index. -/
def normalizeAll (sourceTag : Option String) (raw : List JVal) : List LocomoRef :=
  raw.enum.map fun p => normalizeExample (toDictWrap p.2) p.1 sourceTag

/-- `os.path.basename` on a POSIX path. -/
def basename (p : String) : String :=
  ((p.splitOn "/").getLast?).getD ""

def locomoUsageMsg : String :=
  "ERROR: Provide --dataset_id for HF dataset (requires `pip install datasets`) or --from_file for local JSON."

/-- `main()` of the LoCoMo dumper. The two external data sources (local
JSON file, HF dataset) are abstracted as functions from their selector
arguments to the loaded item list; file-system side effects are reflected
in the outcome. -/
def runMain (args : LocomoArgs) (fileData : String → List JVal)
    (hfData : String → String → List JVal) : LocomoOutcome :=
  if truthyOpt args.from_file then
    let path := args.from_file.getD ""
    .wrote args.out
      (normalizeAll (some (basename path)) (applyLimit args.limit (fileData path)))
  else if truthyOpt args.dataset_id then
    let did := args.dataset_id.getD ""
    .wrote args.out
      (normalizeAll (some (did ++ ":" ++ args.split))
        (applyLimit args.limit (hfData did args.split)))
  else
    .exitErr 2 locomoUsageMsg

/-! ### MemoryAgentBench dumper (`benchmarks/mab_helpers/dump_references.py`) -/

/-- `fnmatch.fnmatch` over the wildcard forms the repository uses:
`*` matches any (possibly empty) substring, `?` matches any single
character, every other pattern character matches itself. (`fnmatch`
character classes `[...]` appear nowhere in the spec, the CLI defaults,
or the claims.) First argument is the pattern, second the name. -/
def globChars : List Char → List Char → Bool
  | [], s => s.isEmpty
  | '*' :: ps, s => s.tails.any fun t => globChars ps t
  | '?' :: ps, s =>
    match s with
    | [] => false
    | _ :: ss => globChars ps ss
  | c :: ps, s =>
    match s with
    | [] => false
    | d :: ss => c == d && globChars ps ss

/-- `fnmatch.fnmatch(name, pattern)`. -/
def fnmatchB (name pattern : String) : Bool :=
  globChars pattern.data name.data

/-- Python truthiness of a JSON value (`bool(x)`), used to model `x or d`
defaulting. -/
def jfalsy : JVal → Bool
  | .null => true
  | .bool b => !b
  | .num n => n == 0
  | .str s => s == ""
  | .arr xs => xs.isEmpty
  | .obj fs => fs.isEmpty

/-- `entry.get("metadata") or \x7b\x7d`: a falsy value (absent, `None`,
empty dict) yields the empty dict. A truthy non-dict `metadata` would
raise `AttributeError` at the following `meta.get` in Python; the dataset
schema fixes `metadata` to a dict, so such entries are outside the
modelled domain. -/
def mabMeta (entry : List (String × JVal)) : List (String × JVal) :=
  match lookupKey entry "metadata" with
  | some (.obj m) => m
  | _ => []

/-- `meta.get("source", "")`. -/
def mabSource (entry : List (String × JVal)) : JVal :=
  (lookupKey (mabMeta entry) "source").getD (.str "")

/-- The source filter: `isinstance(src, str) and fnmatch.fnmatch(src, source_pattern)`. -/
def mabSourceOk (entry : List (String × JVal)) (pattern : String) : Bool :=
  match mabSource entry with
  | .str s => fnmatchB s pattern
  | _ => false

/-- `d.get(k) or []`: a falsy value (absent, `None`, `""`, `0`, empty
containers) yields `[]`. A truthy non-array value is outside the modelled
domain (the dataset schema fixes these fields to arrays; in Python a
truthy non-sequence would raise `TypeError` at the following `len`). -/
def getArrD (d : List (String × JVal)) (k : String) : List JVal :=
  match lookupKey d k with
  | some (.arr xs) => xs
  | _ => []

def mabQuestions (entry : List (String × JVal)) : List JVal :=
  getArrD entry "questions"

def mabAnswers (entry : List (String × JVal)) : List JVal :=
  getArrD entry "answers"

def mabQids (entry : List (String × JVal)) : List JVal :=
  getArrD (mabMeta entry) "question_ids"

def mabQtypes (entry : List (String × JVal)) : List JVal :=
  getArrD (mabMeta entry) "question_types"

/-- `entry.get("context") or ""`. -/
def mabContext (entry : List (String × JVal)) : JVal :=
  match lookupKey entry "context" with
  | some v => if jfalsy v then .str "" else v
  | none => .str ""

/-- `n = min(len(questions), len(answers), len(qids), len(qtypes))`. -/
def mabN (entry : List (String × JVal)) : Nat :=
  min (min (mabQuestions entry).length (mabAnswers entry).length)
    (min (mabQids entry).length (mabQtypes entry).length)

/-- The reference record of the MemoryAgentBench dumper. -/
structure MabRef where
  question : String
  answer : String
  question_id : String
  question_type : String
  context : String
  source : String
  abstention : Bool
  deriving DecidableEq

/-- The loop body building the record at index `i`. For `i < n` every
index is in range and `str()` is total on JSON values, so the
`try/except Exception: continue` skip path is unreachable in the
modelled domain. -/
def mabRefAt (entry : List (String × JVal)) (i : Nat) : MabRef :=
  { question := pyStr ((mabQuestions entry).getD i .null)
    answer := pyStr ((mabAnswers entry).getD i .null)
    question_id := pyStr ((mabQids entry).getD i .null)
    question_type := pyStr ((mabQtypes entry).getD i .null)
    context := pyStr (mabContext entry)
    source := pyStr (mabSource entry)
    abstention := containsStr (pyStr ((mabQids entry).getD i .null)) "_abs" }

/-- Records contributed by one dataset entry in `load_references` (the
`n == 0` `continue` coincides with the empty range). -/
def entryRefs (pattern : String) (entry : List (String × JVal)) : List MabRef :=
  if mabSourceOk entry pattern then (List.range (mabN entry)).map (mabRefAt entry)
  else []

/-- `load_references`, with the dataset load abstracted to the list of its
entries. -/
def loadReferences (pattern : String)
    (entries : List (List (String × JVal))) : List MabRef :=
  (entries.map (entryRefs pattern)).flatten

/-! ### Reranker serving handler (`scripts/aws/templates/bge_reranker/inference.py`) -/

/-- The Python exceptions `input_fn` can raise. -/
inductive PyErr where
  | valueError : String → PyErr
  | typeError : PyErr
  | indexError : PyErr
  | jsonDecodeError : PyErr
  deriving DecidableEq

/-- A request body as `input_fn` observes it: the empty string, a
non-empty string that is not valid JSON (`json.loads` raises), or a
non-empty string whose `json.loads` result is the given value. -/
inductive ReqBody where
  | empty : ReqBody
  | malformed : ReqBody
  | json : JVal → ReqBody

def unsupportedMsg : String :=
  "Unsupported payload format. Provide \x7binputs: \x7bsource_sentence, sentences\x7d\x7d or list of [query, passage]."

/-- `_normalize_iterable`: lists pass through; the tuple branch is vacuous
on JSON-decoded values; anything else raises. -/
def normalizeIterable : JVal → Except PyErr (List JVal)
  | .arr xs => .ok xs
  | _ => .error (.valueError "Expected list of passages")

/-- Python `tuple(item)`: sequences yield their items, strings their
characters, dicts their keys; non-iterables raise `TypeError`. -/
def toTupleVal : JVal → Except PyErr (List JVal)
  | .arr ys => .ok ys
  | .str s => .ok (s.data.map fun c => JVal.str (String.singleton c))
  | .obj fs => .ok (fs.map fun kv => JVal.str kv.1)
  | _ => .error .typeError

/-- Python `xs[i]` on a sequence: `IndexError` out of range. -/
def pyIndex (xs : List JVal) (i : Nat) : Except PyErr JVal :=
  match xs.get? i with
  | some v => .ok v
  | none => .error .indexError

/-- Left-to-right effects of a Python list comprehension: the first
exception aborts the whole comprehension. -/
def mapExcept {ε α β : Type} (f : α → Except ε β) : List α → Except ε (List β)
  | [] => .ok []
  | x :: xs =>
    match f x with
    | .error e => .error e
    | .ok y =>
      match mapExcept f xs with
      | .error e => .error e
      | .ok ys => .ok (y :: ys)

/-- Python `"k" in xs` for a list: equality test against each element.
Among JSON values a string compares equal only to an equal string. -/
def memStr (xs : List JVal) (k : String) : Bool :=
  xs.any fun v =>
    match v with
    | .str s => s == k
    | _ => false

/-- Lines 43-50 of `input_fn`: the `[query, passage]`-pairs branch. -/
def listBranch (xs : List JVal) : Except PyErr (String × List String) :=
  match mapExcept toTupleVal xs with
  | .error e => .error e
  | .ok [] => .error (.valueError "Expected non-empty list of [query, passage] pairs")
  | .ok (p0 :: rest) =>
    match pyIndex p0 0 with
    | .error e => .error e
    | .ok q =>
      match mapExcept (fun p => pyIndex p 1) (p0 :: rest) with
      | .error e => .error e
      | .ok ps => .ok (pyStr q, ps.map pyStr)

/-- The code after the `inputs` unwrapping, for an originally-dict
payload `p2` (the possibly-unwrapped value): the two keyed shapes, the
bare `"query" in payload` membership test Python applies to whatever
`p2` is, then the list branch or the final `ValueError`. -/
def dictRest (p2 : JVal) : Except PyErr (String × List String) :=
  match p2 with
  | .obj d2 =>
    if hasKey d2 "source_sentence" && hasKey d2 "sentences" then
      match normalizeIterable (getKeyD d2 "sentences") with
      | .error e => .error e
      | .ok ps => .ok (pyStr (getKeyD d2 "source_sentence"), ps.map pyStr)
    else if hasKey d2 "query" && hasKey d2 "passages" then
      match normalizeIterable (getKeyD d2 "passages") with
      | .error e => .error e
      | .ok ps => .ok (pyStr (getKeyD d2 "query"), ps.map pyStr)
    else .error (.valueError unsupportedMsg)
  | .arr xs =>
    if memStr xs "query" && memStr xs "passages" then .error .typeError
    else listBranch xs
  | .str s =>
    if containsStr s "query" && containsStr s "passages" then .error .typeError
    else .error (.valueError unsupportedMsg)
  | _ => .error .typeError

/-- Lines 31-52 of `input_fn`: dispatch on the payload produced by
`json.loads`. -/
def inputFnPayload (payload : JVal) : Except PyErr (String × List String) :=
  match payload with
  | .obj d => dictRest (if hasKey d "inputs" then getKeyD d "inputs" else .obj d)
  | .arr xs => listBranch xs
  | _ => .error (.valueError unsupportedMsg)

/-- `input_fn(request_body, request_content_type)`. A `None` content type
and the empty string are both falsy and behave identically, so the
content type is a plain string. -/
def inputFn (contentType : String) (body : ReqBody) :
    Except PyErr (String × List String) :=
  if !(contentType == "") && !(containsStr contentType "json") then
    .error (.valueError ("Unsupported content type: " ++ contentType))
  else
    match body with
    | .empty => .error (.valueError "Empty request body")
    | .malformed => .error .jsonDecodeError
    | .json v => inputFnPayload v

/-- `predict_fn(data, model)`. The external `CrossEncoder.predict` is
abstracted as a function from the pair list to a score list; the
`tolist`/`float` conversion is the identity on the modelled scores. -/
def predictFn {α : Type} (model : List (String × String) → List α)
    (data : String × List String) : List α :=
  let (query, passages) := data
  if passages.isEmpty then []
  else model (passages.map fun p => (query, p))

/-! ### Spec-side shape predicates

The specification describes `input_fn` by the shapes it accepts. The
following predicates transcribe those descriptions (not the code) so the
code's behaviour can be compared against them. -/

/-- The spec's shape (a), literally: a dict whose `inputs` value is a dict
holding `source_sentence` and `sentences`. -/
def specShapeA : JVal → Bool
  | .obj d =>
    match lookupKey d "inputs" with
    | some (.obj d2) => hasKey d2 "source_sentence" && hasKey d2 "sentences"
    | _ => false
  | _ => false

/-- The spec's shape (b), literally: a dict holding `query` and
`passages`. -/
def specShapeB : JVal → Bool
  | .obj d => hasKey d "query" && hasKey d "passages"
  | _ => false

/-- A two-element array, the literal reading of a `[query, passage]`
pair. -/
def isPair : JVal → Bool
  | .arr ys => ys.length == 2
  | _ => false

/-- The spec's shape (c), literally: a non-empty list of
`[query, passage]` pairs. -/
def specShapeC : JVal → Bool
  | .arr xs => !xs.isEmpty && xs.all isPair
  | _ => false

/-- `Except` success as a Boolean. -/
def isOkB {ε α : Type} : Except ε α → Bool
  | .ok _ => true
  | .error _ => false

/-- An item from which Python builds a tuple of length at least two:
what a list-payload item must be for `p[1]` to exist. -/
def tupleLen2 : JVal → Bool
  | .arr ys => decide (2 ≤ ys.length)
  | .str s => decide (2 ≤ s.length)
  | .obj fs => decide (2 ≤ fs.length)
  | _ => false

/-- A list payload `input_fn` accepts: non-empty, every item yielding a
pair with at least two components. -/
def listShapeAccepted (xs : List JVal) : Bool :=
  !xs.isEmpty && xs.all tupleLen2

def isArr : JVal → Bool
  | .arr _ => true
  | _ => false

/-- The (possibly `inputs`-unwrapped) value of a dict payload that
`input_fn` accepts: one of the two keyed dict shapes with an array of
sentences/passages, or an accepted list that does not trip the dict-style
membership test. -/
def dictShapeAccepted : JVal → Bool
  | .obj d2 =>
    if hasKey d2 "source_sentence" && hasKey d2 "sentences" then
      isArr (getKeyD d2 "sentences")
    else if hasKey d2 "query" && hasKey d2 "passages" then
      isArr (getKeyD d2 "passages")
    else false
  | .arr xs => !(memStr xs "query" && memStr xs "passages") && listShapeAccepted xs
  | _ => false

/-- All payloads `input_fn` accepts. -/
def acceptedPayload : JVal → Bool
  | .obj d => dictShapeAccepted (if hasKey d "inputs" then getKeyD d "inputs" else .obj d)
  | .arr xs => listShapeAccepted xs
  | _ => false

/-- The requests `input_fn` accepts: JSON-compatible content type and an
accepted payload. -/
def requestAccepted (contentType : String) (body : ReqBody) : Bool :=
  ((contentType == "") || containsStr contentType "json") &&
    (match body with
     | .json v => acceptedPayload v
     | _ => false)

/-! ### Concrete test data from the specification -/

/-- The spec's ragged MemoryAgentBench entry:
`questions=["a","b"], answers=["x"], question_ids=["1","2"], question_types=["t","t"]`,
with a source passing the default filter. -/
def mabDemoEntry : List (String × JVal) :=
  [("metadata", .obj
      [("source", .str "longmemeval_s1"),
       ("question_ids", .arr [.str "1", .str "2"]),
       ("question_types", .arr [.str "t", .str "t"])]),
   ("questions", .arr [.str "a", .str "b"]),
   ("answers", .arr [.str "x"]),
   ("context", .str "c")]

/-- An entry whose `metadata.source` is `"other"`. -/
def mabOtherEntry : List (String × JVal) :=
  [("metadata", .obj [("source", .str "other")]),
   ("questions", .arr [.str "a"]),
   ("answers", .arr [.str "x"])]

/-- A `query`/`passages` dict wrapped under `inputs`. -/
def wrappedQueryPassages : JVal :=
  .obj [("inputs", .obj [("query", .str "q"), ("passages", .arr [.str "p1", .str "p2"])])]

/-- A list of `[query, passage]` pairs wrapped under `inputs`. -/
def wrappedPairs : JVal :=
  .obj [("inputs", .arr [.arr [.str "q", .str "p1"], .arr [.str "q2", .str "p2"]])]

/-- A single-passage `query`/`passages` dict wrapped under `inputs`. -/
def wrappedSingle : JVal :=
  .obj [("inputs", .obj [("query", .str "q"), ("passages", .arr [.str "p1"])])]

/-- A stand-in scoring model: one zero score per pair. -/
def demoModel (pairs : List (String × String)) : List Int :=
  pairs.map fun _ => 0

/-! ### Helper lemmas -/

theorem toDigitsCore_length_le (b fuel n : Nat) (ds : List Char) :
    ds.length ≤ (Nat.toDigitsCore b fuel n ds).length := by
  induction fuel generalizing n ds with
  | zero => simp [Nat.toDigitsCore]
  | succ fuel ih =>
    rw [Nat.toDigitsCore]
    split
    · simp
    · exact le_trans (by simp) (ih _ _)

theorem toDigits_length_pos (b n : Nat) : 0 < (Nat.toDigits b n).length := by
  rw [Nat.toDigits, Nat.toDigitsCore]
  split
  · simp
  · exact lt_of_lt_of_le (by simp) (toDigitsCore_length_le b _ _ _)

theorem natRepr_ne_empty (n : Nat) : Nat.repr n ≠ "" := by
  intro h
  have h2 : (Nat.toDigits 10 n).length = 0 := congrArg String.length h
  exact absurd h2 (Nat.pos_iff_ne_zero.mp (toDigits_length_pos 10 n))

theorem append_ne_empty_of_left {a : String} (ha : a.length ≠ 0) (b : String) :
    a ++ b ≠ "" := by
  intro h
  have h2 := congrArg String.length h
  rw [String.length_append] at h2
  exact ha (Nat.eq_zero_of_add_eq_zero_right h2)

theorem intToString_ne_empty (n : Int) : toString n ≠ "" := by
  cases n with
  | ofNat m => exact natRepr_ne_empty m
  | negSucc m => exact append_ne_empty_of_left (by decide) _

theorem append_ne_empty_of_right (a : String) {b : String} (hb : b.length ≠ 0) :
    a ++ b ≠ "" := by
  intro h
  have h2 := congrArg String.length h
  rw [String.length_append] at h2
  exact hb (Nat.eq_zero_of_add_eq_zero_left h2)

theorem jsonDumps_arr_ne_empty (xs : List JVal) : jsonDumps (.arr xs) ≠ "" := by
  rw [jsonDumps]
  exact append_ne_empty_of_right _ (by decide)

theorem jsonDumps_obj_ne_empty (fs : List (String × JVal)) : jsonDumps (.obj fs) ≠ "" := by
  rw [jsonDumps]
  exact append_ne_empty_of_right _ (by decide)

/-- `_to_str` returns the empty string exactly on `None` and on the empty
string. -/
theorem toStr_eq_empty_iff (v : JVal) : toStr v = "" ↔ v = .null ∨ v = .str "" := by
  cases v with
  | null => simp [toStr]
  | bool b => cases b <;> simp [toStr]
  | num n => simp [toStr, intToString_ne_empty n]
  | str s => simp [toStr]
  | arr xs => simp [toStr, jsonDumps_arr_ne_empty xs]
  | obj fs => simp [toStr, jsonDumps_obj_ne_empty fs]

/-- `_first_present` never returns a `None` value: nulls are filtered by
its presence test. -/
theorem firstPresent_ne_null (d : List (String × JVal)) (ks : List String) :
    firstPresent d ks ≠ some .null := by
  induction ks with
  | nil => simp [firstPresent]
  | cons k ks ih =>
    simp only [firstPresent]
    split
    · exact ih
    · simp_all
    · exact ih

/-- If no candidate key is present with a non-null value, `_first_present`
returns `None`. -/
theorem firstPresent_eq_none (d : List (String × JVal)) (ks : List String)
    (h : ∀ k ∈ ks, presentNonNull d k = false) : firstPresent d ks = none := by
  induction ks with
  | nil => rfl
  | cons k ks ih =>
    have hk := h k (by simp)
    have hrest : ∀ k2 ∈ ks, presentNonNull d k2 = false :=
      fun k2 hk2 => h k2 (List.mem_cons_of_mem _ hk2)
    simp only [firstPresent]
    split
    · exact ih hrest
    · rename_i v heq hne
      rw [presentNonNull, hne] at hk
      cases v <;> simp_all
    · exact ih hrest

/-! ### Claims about the LoCoMo normalization -/

/-- **C1** (counterexample): the claim says `question_id` is always
non-empty, but a raw example carrying an empty string under an id-like
key (here `id`) normalizes to an empty `question_id`: the `locomo-<index>`
default only fires when the key is absent or `None`. -/
theorem locomo_question_id_empty_example :
    (normalizeExample [("id", JVal.str "")] 0 none).question_id = "" := rfl

/-- **C1** (amended): the normalized `question_id` is the empty string
exactly when an id-like key is present and holds the empty string;
otherwise (in particular whenever all id-like keys are absent or null,
where `locomo-<index>` is synthesized) it is non-empty. -/
theorem locomo_question_id_empty_iff (ex : List (String × JVal)) (idx : Nat)
    (src : Option String) :
    (normalizeExample ex idx src).question_id = "" ↔
      firstPresent ex questionIdKeys = some (.str "") := by
  have hform : (normalizeExample ex idx src).question_id
      = toStr ((firstPresent ex questionIdKeys).getD (.str ("locomo-" ++ toString idx))) := rfl
  rw [hform]
  cases h : firstPresent ex questionIdKeys with
  | none =>
    simp [Option.getD, toStr,
      append_ne_empty_of_left (show ("locomo-").length ≠ 0 by decide) (toString idx)]
  | some v =>
    have hv : v ≠ .null := fun hh => firstPresent_ne_null ex questionIdKeys (hh ▸ h)
    simp [Option.getD, toStr_eq_empty_iff, hv]

/-- **C2**: when no id-like key (`question_id`, `qid`, `id`, `uid`,
`sample_id`, `example_id`) is present with a non-null value, the
normalized `question_id` is `locomo-<index>`. -/
theorem locomo_question_id_default (ex : List (String × JVal)) (i : Nat)
    (src : Option String)
    (h : ∀ k ∈ questionIdKeys, presentNonNull ex k = false) :
    (normalizeExample ex i src).question_id = "locomo-" ++ toString i := by
  have hn := firstPresent_eq_none ex questionIdKeys h
  show toStr ((firstPresent ex questionIdKeys).getD (.str ("locomo-" ++ toString i))) = _
  rw [hn]
  rfl

theorem locomo_question_id_default_witness :
    (∀ k ∈ questionIdKeys, presentNonNull [("question", JVal.str "q")] k = false) ∧
    (normalizeExample [("question", JVal.str "q")] 7 none).question_id = "locomo-7" :=
  ⟨by decide, locomo_question_id_default [("question", JVal.str "q")] 7 none (by decide)⟩

/-- **C3**: the normalized `abstention` is the first present non-null
value among `abstention`, `is_abstention`, `skip`, `unanswerable` when
that value is a boolean, and null otherwise (no value present, or a
non-boolean value). -/
theorem locomo_abstention_normalized (ex : List (String × JVal)) (i : Nat)
    (src : Option String) :
    (firstPresent ex abstentionKeys = none →
        (normalizeExample ex i src).abstention = none) ∧
    (∀ b : Bool, firstPresent ex abstentionKeys = some (.bool b) →
        (normalizeExample ex i src).abstention = some b) ∧
    (∀ v : JVal, firstPresent ex abstentionKeys = some v →
        (∀ b : Bool, v ≠ .bool b) →
        (normalizeExample ex i src).abstention = none) := by
  have habs : (normalizeExample ex i src).abstention =
      (match firstPresent ex abstentionKeys with
        | some (.bool b) => some b
        | _ => none) := rfl
  refine ⟨fun h => ?_, fun b h => ?_, fun v h hv => ?_⟩
  · rw [habs, h]
  · rw [habs, h]
  · rw [habs, h]
    cases v <;> first | rfl | exact absurd rfl (hv _)

theorem locomo_abstention_normalized_witness :
    (normalizeExample [("skip", JVal.bool true)] 0 none).abstention = some true :=
  (locomo_abstention_normalized [("skip", JVal.bool true)] 0 none).2.1 true rfl

/-! ### Claims about the LoCoMo CLI behaviour -/

/-- **C8**: invoked with neither `--from_file` nor `--dataset_id`, the
LoCoMo dumper exits with code 2 after a stderr message, and writes no
output file. -/
theorem locomo_missing_source_exits (out split : String) (limit : Option Int)
    (fileData : String → List JVal) (hfData : String → String → List JVal) :
    runMain ⟨out, none, split, none, limit⟩ fileData hfData
        = .exitErr 2 locomoUsageMsg ∧
    ∀ path recs,
      runMain ⟨out, none, split, none, limit⟩ fileData hfData ≠ .wrote path recs := by
  refine ⟨rfl, fun path recs hc => ?_⟩
  exact LocomoOutcome.noConfusion hc

theorem locomo_missing_source_exits_witness :
    runMain ⟨"refs.json", none, "test", none, none⟩ (fun _ => []) (fun _ _ => [])
      = .exitErr 2 locomoUsageMsg :=
  (locomo_missing_source_exits "refs.json" "test" none (fun _ => []) (fun _ _ => [])).1

/-- **C9**: an absent, zero, or negative `--limit` leaves the raw list
untruncated, a positive `k` keeps the first `min(k, len)` items, and the
normalization pass then emits one record per kept item at its positional
index, in input order. -/
theorem locomo_limit_semantics (raw : List JVal) :
    applyLimit none raw = raw ∧
    (∀ k : Int, k ≤ 0 → applyLimit (some k) raw = raw) ∧
    applyLimit (some 0) raw = raw ∧
    (∀ k : Int, 0 < k →
        applyLimit (some k) raw = raw.take (min k.toNat raw.length)) ∧
    (∀ (limit : Option Int) (tag : Option String),
        (normalizeAll tag (applyLimit limit raw)).length
          = (applyLimit limit raw).length) ∧
    (∀ (limit : Option Int) (tag : Option String) (i : Nat),
        (normalizeAll tag (applyLimit limit raw))[i]?
          = ((applyLimit limit raw)[i]?).map
              fun ex => normalizeExample (toDictWrap ex) i tag) := by
  refine ⟨rfl, fun k hk => ?_, ?_, fun k hk => ?_, fun limit tag => ?_, fun limit tag i => ?_⟩
  · simp [applyLimit, not_lt_of_ge hk]
  · simp [applyLimit]
  · simp [applyLimit, hk]
  · simp [normalizeAll, List.enum_length]
  · simp only [normalizeAll, List.getElem?_map, List.getElem?_enum, Option.map_map]
    rfl

theorem locomo_limit_semantics_witness :
    applyLimit (some 0) [JVal.str "a", JVal.str "b"] = [JVal.str "a", JVal.str "b"] ∧
    applyLimit (some (-1)) [JVal.str "a", JVal.str "b"] = [JVal.str "a", JVal.str "b"] ∧
    applyLimit (some 1) [JVal.str "a", JVal.str "b"] = [JVal.str "a"] :=
  ⟨(locomo_limit_semantics [JVal.str "a", JVal.str "b"]).2.2.1,
   (locomo_limit_semantics [JVal.str "a", JVal.str "b"]).2.1 (-1) (by decide),
   ((locomo_limit_semantics [JVal.str "a", JVal.str "b"]).2.2.2.1 1 (by decide)).trans rfl⟩

/-! ### Claims about the MemoryAgentBench dumper -/

/-- **C4**: an entry passing the source filter expands into exactly one
record per index below the minimum of the four array lengths; on
JSON-valued arrays the per-item `try/except` never skips, so the count
equals that minimum (ragged arrays are silently truncated). -/
theorem mab_expansion_count (entry : List (String × JVal)) (pattern : String)
    (h : mabSourceOk entry pattern = true) :
    (entryRefs pattern entry).length =
      min (min (mabQuestions entry).length (mabAnswers entry).length)
        (min (mabQids entry).length (mabQtypes entry).length) := by
  simp [entryRefs, h, mabN]

theorem mab_expansion_count_witness :
    mabSourceOk mabDemoEntry "longmemeval_s*" = true ∧
    (entryRefs "longmemeval_s*" mabDemoEntry).length = 1 :=
  ⟨rfl, (mab_expansion_count mabDemoEntry "longmemeval_s*" rfl).trans rfl⟩

/-- **C5**: an entry contributes records only if `metadata.source` is a
string glob-matching the pattern; `longmemeval_s1` passes the default
`longmemeval_s*` pattern and `other` does not. -/
theorem mab_source_filter (entry : List (String × JVal)) (pattern : String) :
    (mabSourceOk entry pattern = false → entryRefs pattern entry = []) ∧
    mabSourceOk mabDemoEntry "longmemeval_s*" = true ∧
    mabSourceOk mabOtherEntry "longmemeval_s*" = false := by
  refine ⟨fun h => ?_, rfl, rfl⟩
  simp [entryRefs, h]

theorem mab_source_filter_witness :
    entryRefs "longmemeval_s*" mabOtherEntry = [] :=
  (mab_source_filter mabOtherEntry "longmemeval_s*").1 rfl

/-! ### Claims about the reranker handler -/

/-- **C7**: `predict_fn` returns `[]` for empty passages for every model
(so without consulting it); otherwise it applies the model to the
`(query, passage)` pairs in passage order, producing one score per
passage whenever the model scores each pair. -/
theorem predict_fn_scores {α : Type} (model : List (String × String) → List α)
    (q : String) (ps : List String) :
    predictFn model (q, []) = [] ∧
    ((∀ pairs, (model pairs).length = pairs.length) →
        (predictFn model (q, ps)).length = ps.length) ∧
    (ps ≠ [] → predictFn model (q, ps) = model (ps.map fun p => (q, p))) := by
  refine ⟨rfl, fun hm => ?_, fun hne => ?_⟩
  · cases ps with
    | nil => rfl
    | cons p ps => simp [predictFn, hm]
  · cases ps with
    | nil => exact absurd rfl hne
    | cons p ps => rfl

theorem predict_fn_scores_witness :
    predictFn demoModel ("q", []) = [] ∧
    (predictFn demoModel ("q", ["p1", "p2"])).length = 2 :=
  ⟨(predict_fn_scores demoModel "q" []).1,
   (predict_fn_scores demoModel "q" ["p1", "p2"]).2.1
     (by intro pairs; simp [demoModel])⟩

/-- **C10**: `input_fn` also accepts an `inputs`-wrapped `query`/`passages`
dict and an `inputs`-wrapped list of pairs: the wrapper is unwrapped
first, and the remaining shape dispatch runs on the unwrapped value. -/
theorem input_fn_extra_shapes :
    inputFn "application/json" (.json wrappedQueryPassages) = .ok ("q", ["p1", "p2"]) ∧
    inputFn "application/json" (.json wrappedPairs) = .ok ("q", ["p1", "p2"]) ∧
    (∀ (d : List (String × JVal)) (v : JVal), lookupKey d "inputs" = some v →
        inputFnPayload (.obj d) = dictRest v) := by
  refine ⟨rfl, rfl, fun d v h => ?_⟩
  simp [inputFnPayload, hasKey, getKeyD, h]

theorem input_fn_extra_shapes_witness :
    inputFnPayload (.obj [("inputs", JVal.null)]) = dictRest JVal.null :=
  input_fn_extra_shapes.2.2 [("inputs", JVal.null)] JVal.null rfl

/-! ### Error characterization of `input_fn` -/

theorem string_length_data (s : String) : s.data.length = s.length := by
  cases s
  rfl

theorem isOkB_mapExcept {ε α β : Type} (f : α → Except ε β) (xs : List α) :
    isOkB (mapExcept f xs) = xs.all fun x => isOkB (f x) := by
  induction xs with
  | nil => rfl
  | cons x xs ih =>
    rw [List.all_cons, mapExcept]
    cases f x with
    | error e => rfl
    | ok y =>
      rw [← ih]
      cases mapExcept f xs with
      | error e => rfl
      | ok ys => rfl

theorem mapExcept_ok_all {ε α β : Type} (f : α → Except ε β) (P : β → Bool)
    (Q : α → Bool) (hpq : ∀ x y, f x = .ok y → P y = Q x) :
    ∀ (xs : List α) (ys : List β), mapExcept f xs = .ok ys → ys.all P = xs.all Q := by
  intro xs
  induction xs with
  | nil =>
    intro ys h
    cases h
    rfl
  | cons x xs ih =>
    intro ys h
    rw [mapExcept] at h
    cases hf : f x with
    | error e =>
      rw [hf] at h
      cases h
    | ok y =>
      rw [hf] at h
      cases hm : mapExcept f xs with
      | error e =>
        rw [hm] at h
        cases h
      | ok ys2 =>
        rw [hm] at h
        cases h
        rw [List.all_cons, List.all_cons, hpq x y hf, ih ys2 hm]

theorem mapExcept_ok_nil {ε α β : Type} (f : α → Except ε β) (xs : List α)
    (h : mapExcept f xs = .ok []) : xs = [] := by
  cases xs with
  | nil => rfl
  | cons x xs =>
    rw [mapExcept] at h
    cases hf : f x <;> rw [hf] at h
    · cases h
    · cases hm : mapExcept f xs <;> rw [hm] at h <;> simp at h

theorem isOkB_pyIndex (p : List JVal) (i : Nat) :
    isOkB (pyIndex p i) = decide (i + 1 ≤ p.length) := by
  rw [pyIndex]
  cases h : p.get? i with
  | none =>
    have hl := List.get?_eq_none.mp h
    have hn : ¬ (i + 1 ≤ p.length) := by omega
    simp [isOkB, hn]
  | some v =>
    have hl : i < p.length := by
      by_contra hc
      rw [List.get?_eq_none.mpr (by omega)] at h
      cases h
    have hy : i + 1 ≤ p.length := hl
    simp [isOkB, hy]

theorem tupleLen2_of_toTupleVal (x : JVal) (y : List JVal)
    (h : toTupleVal x = .ok y) : decide (2 ≤ y.length) = tupleLen2 x := by
  cases x <;> simp [toTupleVal] at h <;> subst h <;>
    simp [tupleLen2, string_length_data]

theorem tuplable_of_tupleLen2 (x : JVal) (h : tupleLen2 x = true) :
    isOkB (toTupleVal x) = true := by
  cases x <;> simp_all [tupleLen2, toTupleVal, isOkB]

theorem isOkB_listBranch (xs : List JVal) :
    isOkB (listBranch xs) = listShapeAccepted xs := by
  rw [listBranch]
  cases hm : mapExcept toTupleVal xs with
  | error e =>
    have hall : (xs.all fun x => isOkB (toTupleVal x)) = false := by
      rw [← isOkB_mapExcept, hm]
      rfl
    have hq : xs.all tupleLen2 = false := by
      cases hq0 : xs.all tupleLen2
      · rfl
      · exfalso
        rw [List.all_eq_true] at hq0
        have : (xs.all fun x => isOkB (toTupleVal x)) = true :=
          List.all_eq_true.mpr fun x hx => tuplable_of_tupleLen2 x (hq0 x hx)
        rw [this] at hall
        cases hall
    simp [isOkB, listShapeAccepted, hq]
  | ok pairs =>
    have hall : pairs.all (fun p => decide (2 ≤ p.length)) = xs.all tupleLen2 :=
      mapExcept_ok_all toTupleVal _ tupleLen2 tupleLen2_of_toTupleVal xs pairs hm
    cases pairs with
    | nil =>
      have hx := mapExcept_ok_nil _ _ hm
      subst hx
      simp [isOkB, listShapeAccepted]
    | cons p0 rest =>
      have hxne : xs.isEmpty = false := by
        cases xs with
        | nil =>
          rw [mapExcept] at hm
          cases hm
        | cons a as => rfl
      cases hq : pyIndex p0 0 with
      | error e =>
        have h0 : isOkB (pyIndex p0 0) = false := by
          rw [hq]
          rfl
        rw [isOkB_pyIndex] at h0
        have hp0 : ¬ (2 ≤ p0.length) := by
          have := of_decide_eq_false h0
          omega
        have hfalse : (p0 :: rest).all (fun p => decide (2 ≤ p.length)) = false := by
          simp [List.all_cons, hp0]
        rw [hfalse] at hall
        dsimp only
        rw [hq]
        simp [isOkB, listShapeAccepted, ← hall]
      | ok q =>
        cases hm2 : mapExcept (fun p => pyIndex p 1) (p0 :: rest) with
        | error e =>
          have h2 : isOkB (mapExcept (fun p => pyIndex p 1) (p0 :: rest)) = false := by
            rw [hm2]
            rfl
          rw [isOkB_mapExcept] at h2
          have hfalse : (p0 :: rest).all (fun p => decide (2 ≤ p.length)) = false := by
            rw [← h2]
            congr 1
            funext p
            rw [isOkB_pyIndex]
          rw [hfalse] at hall
          dsimp only
          rw [hq, hm2]
          simp [isOkB, listShapeAccepted, ← hall]
        | ok ps =>
          have h2 : isOkB (mapExcept (fun p => pyIndex p 1) (p0 :: rest)) = true := by
            rw [hm2]
            rfl
          rw [isOkB_mapExcept] at h2
          have htrue : (p0 :: rest).all (fun p => decide (2 ≤ p.length)) = true := by
            rw [← h2]
            congr 1
            funext p
            rw [isOkB_pyIndex]
          rw [htrue] at hall
          dsimp only
          rw [hq, hm2]
          simp [isOkB, listShapeAccepted, ← hall, hxne]

theorem isOkB_dictRest (w : JVal) : isOkB (dictRest w) = dictShapeAccepted w := by
  cases w with
  | obj d2 =>
    rw [dictRest, dictShapeAccepted]
    cases h1 : hasKey d2 "source_sentence" && hasKey d2 "sentences" with
    | true =>
      simp only [h1, if_true]
      cases hv : getKeyD d2 "sentences" <;> simp [normalizeIterable, isArr, isOkB]
    | false =>
      simp only [h1, Bool.false_eq_true, if_false]
      cases h2 : hasKey d2 "query" && hasKey d2 "passages" with
      | true =>
        simp only [h2, if_true]
        cases hv : getKeyD d2 "passages" <;> simp [normalizeIterable, isArr, isOkB]
      | false =>
        simp only [h2, Bool.false_eq_true, if_false]
        rfl
  | arr xs =>
    rw [dictRest, dictShapeAccepted]
    cases h1 : memStr xs "query" && memStr xs "passages" with
    | true => simp [h1, isOkB]
    | false => simp [h1, isOkB_listBranch xs]
  | str s =>
    have hr : dictShapeAccepted (.str s) = false := rfl
    rw [dictRest, hr]
    cases h1 : containsStr s "query" && containsStr s "passages" <;> simp [h1, isOkB]
  | null => rfl
  | bool b => rfl
  | num n => rfl

theorem isOkB_inputFnPayload (v : JVal) :
    isOkB (inputFnPayload v) = acceptedPayload v := by
  cases v with
  | obj d =>
    rw [inputFnPayload, acceptedPayload]
    exact isOkB_dictRest _
  | arr xs =>
    rw [inputFnPayload, acceptedPayload]
    exact isOkB_listBranch xs
  | null => rfl
  | bool b => rfl
  | num n => rfl
  | str s => rfl

/-- **C6** (counterexample): an `inputs`-wrapped `query`/`passages`
payload matches none of the three shapes the claim enumerates, yet
`input_fn` does not raise on it — it returns the tuple. So `input_fn`
does not fail on every payload outside those three shapes. -/
theorem input_fn_shape_claim_gap :
    specShapeA wrappedSingle = false ∧
    specShapeB wrappedSingle = false ∧
    specShapeC wrappedSingle = false ∧
    inputFn "application/json" (.json wrappedSingle) = .ok ("q", ["p1"]) :=
  ⟨rfl, rfl, rfl, rfl⟩

/-- **C6** (amended): `input_fn` raises exactly on the invalid requests,
where valid means: the content type is empty or mentions `json`, the body
is non-empty and parses as JSON, and the payload — after unwrapping a
top-level `inputs` key of a dict payload — is one of: a dict with
`source_sentence` and an array `sentences`; a dict with `query` and an
array `passages`; or a non-empty list, not containing both the strings
`"query"` and `"passages"` when it came from an `inputs` wrapper, whose
items all yield pairs with at least two components. On every valid
request it returns the `(query, passages)` tuple. -/
theorem input_fn_error_characterization (ct : String) (body : ReqBody) :
    isOkB (inputFn ct body) = requestAccepted ct body := by
  have hok : ∀ v : JVal, requestAccepted ct (.json v)
      = (((ct == "") || containsStr ct "json") && acceptedPayload v) :=
    fun v => rfl
  cases hc : !(ct == "") && !(containsStr ct "json") with
  | true =>
    have hfirst : ((ct == "") || containsStr ct "json") = false := by
      cases h1 : ct == "" <;> cases h2 : containsStr ct "json" <;> simp_all
    have hin : inputFn ct body
        = .error (.valueError ("Unsupported content type: " ++ ct)) := by
      rw [inputFn.eq_def, hc]
      rfl
    rw [hin]
    cases body with
    | empty => simp [requestAccepted, isOkB]
    | malformed => simp [requestAccepted, isOkB]
    | json v =>
      rw [hok, hfirst]
      rfl
  | false =>
    have hin : inputFn ct body
        = (match body with
          | ReqBody.empty => .error (.valueError "Empty request body")
          | ReqBody.malformed => .error PyErr.jsonDecodeError
          | ReqBody.json v => inputFnPayload v) := by
      rw [inputFn.eq_def, hc]
      rfl
    have hfirst : ((ct == "") || containsStr ct "json") = true := by
      cases h1 : ct == "" <;> cases h2 : containsStr ct "json" <;> simp_all
    rw [hin]
    cases body with
    | empty => simp [requestAccepted, isOkB]
    | malformed => simp [requestAccepted, isOkB]
    | json v =>
      rw [hok, hfirst]
      simpa using isOkB_inputFnPayload v

end Memora
